import Mathlib

/-!
Verification of the window-lifecycle orchestrator (`src/app/window-handler.ts`
of SymphonyElectron) against its natural-language specification.

The TypeScript class `WindowHandler` is shallowly embedded below:
* the JS object `this.windows` becomes an association list with JS-object
  semantics (unique keys, insert-or-update, `delete`),
* `BrowserWindow` references become opaque `Handle` values whose `id`
  models JS reference identity,
* event wiring (`ipcMain.once`, window `close`/`closed`, `did-finish-load`)
  becomes explicit state machines whose steps are translated line by line
  from the handlers in the source,
* the Node `url.parse` / `url.format` pair used by `getValidUrl` is embedded
  following the legacy parser of Node 12 (the runtime of the Electron
  version this code targets).
-/

set_option autoImplicit false

namespace WH

/-- Opaque reference to a native `BrowserWindow`; `id` models JS reference
identity (`===` on object references). -/
structure Handle where
  id : Nat
deriving DecidableEq

/-- The `this.windows` object of `WindowHandler`: key → window reference. -/
abbrev WindowsMap := List (String × Handle)

/-- JS property read `this.windows[key]` (undefined ↦ `none`). -/
def jsObjGet : WindowsMap → String → Option Handle
  | [], _ => none
  | p :: rest, k => if p.1 == k then some p.2 else jsObjGet rest k

/-- JS property write `this.windows[key] = browserWindow`
(update in place if the key exists, else append; JS objects keep
insertion order and have unique keys). -/
def jsObjSet : WindowsMap → String → Handle → WindowsMap
  | [], k, v => [(k, v)]
  | p :: rest, k, v => if p.1 == k then (k, v) :: rest else p :: jsObjSet rest k v

/-- JS `delete this.windows[key]`. On the unique-key maps built by
`jsObjSet` this removes the (single) entry stored under `key`. -/
def jsObjDelete (m : WindowsMap) (k : String) : WindowsMap :=
  m.filter (fun p => p.1 != k)

/-- `addWindow(key, browserWindow)`: `this.windows[ key ] = browserWindow`. -/
def addWindow (m : WindowsMap) (key : String) (browserWindow : Handle) : WindowsMap :=
  jsObjSet m key browserWindow

/-- `removeWindow(key)`: `delete this.windows[ key ]`. -/
def removeWindow (m : WindowsMap) (key : String) : WindowsMap :=
  jsObjDelete m key

/-- `hasWindow(key, window)`:
`const browserWindow = this.windows[ key ]; return browserWindow && window === browserWindow;`.
The JS expression returns `undefined` (falsy) when the key is absent and the
boolean of the reference comparison otherwise; we model its truthiness. -/
def hasWindow (m : WindowsMap) (key : String) (window : Handle) : Bool :=
  match jsObjGet m key with
  | none => false
  | some browserWindow => window == browserWindow

/-- JS `ToPropertyKey` applied to a value used in `this.windows[ v ]`.
A `BrowserWindow` object stringifies via `Object.prototype.toString` to
`"[object Object]"`; `undefined` stringifies to `"undefined"`. -/
def jsPropertyKey : Option Handle → String
  | some _ => "[object Object]"
  | none => "undefined"

/-- State of the `WindowHandler` slice relevant to `createApplication`'s
close handler and `destroyAllWindow`: the tracked map, the main-window
reference, the set of windows that still exist on the host
(`windowExists`, modelled from the spec: a liveness check on the handle),
and the two configuration/runtime flags the close handler reads. -/
structure WState where
  windows : WindowsMap
  mainWindow : Option Handle
  live : List Handle
  willQuitApp : Bool
  minimizeOnClose : Bool
deriving DecidableEq

/-- `destroyAllWindow()` translated literally:
`for (const key in this.windows) { const winKey = this.windows[ key ]; this.removeWindow(winKey); }`
followed by `this.mainWindow = null`.
Note the slip in the source: `winKey` holds the stored *window object*
(the value), and `removeWindow` coerces it to the property key
`"[object Object]"`. `for (const key in ...)` enumerates the own keys; since
the property name actually deleted differs from every tracked key here, the
iteration visits every original key. -/
def destroyAllWindow (s : WState) : WState :=
  let keys := s.windows.map Prod.fst
  let windows := keys.foldl
    (fun m key =>
      let winKey := jsObjGet m key
      jsObjDelete m (jsPropertyKey winKey))
    s.windows
  { s with windows := windows, mainWindow := none }

/-- Outcome of the `this.mainWindow.on('close', ...)` handler. -/
inductive CloseAction where
  /-- Early return: the close proceeds with default behaviour. -/
  | defaultClose
  /-- `willQuitApp` branch: `destroyAllWindow()` ran, close proceeds. -/
  | destroyAllAndClose
  /-- `minimizeOnClose` on mac: `event.preventDefault(); this.mainWindow.hide()`. -/
  | hidden
  /-- `minimizeOnClose` elsewhere: `event.preventDefault(); this.mainWindow.minimize()`. -/
  | minimized
  /-- Neither: `app.quit()`. -/
  | appQuit
deriving DecidableEq

/-- The main-window `close` handler of `createApplication`
(window-handler.ts lines 252-267), translated branch by branch. -/
def mainWindowOnClose (isMacFlag : Bool) (s : WState) : CloseAction × WState :=
  match s.mainWindow with
  | none => (.defaultClose, s)
  | some w =>
    if ¬ s.live.contains w then (.defaultClose, s)
    else if s.willQuitApp then (.destroyAllAndClose, destroyAllWindow s)
    else if s.minimizeOnClose then
      (if isMacFlag then .hidden else .minimized, s)
    else (.appQuit, s)

/-!
## Basic-auth dialog (`createBasicAuthWindow`, lines 435-469)

One dialog instance, its two `ipcMain.once` subscriptions, and the
`close` listener that deregisters them.  `createComponentWindow` and
`windowExists` live in `window-utils.ts` (not under `src/`); they are
modelled from the spec as, respectively, producing a fresh live window
and checking liveness of a handle.
-/

/-- State of one `createBasicAuthWindow` instance:
`basicAuthWindow` is the field `this.basicAuthWindow`; `live` the set of
still-existing windows; `loginActive`/`closedActive` whether the
`'basic-auth-login'` / `'basic-auth-closed'` once-listeners are registered;
`submits` counts invocations of `callback(username, password)`;
`cancels` counts invocations of `clearSettings()`;
`staleClose` records that `.close()` was invoked on a window that no
longer exists (a stale-handle dereference, which throws in Electron). -/
structure BAState where
  basicAuthWindow : Option Handle
  live : List Handle
  loginActive : Bool
  closedActive : Bool
  submits : Nat
  cancels : Nat
  staleClose : Bool
deriving DecidableEq

/-- State directly after `createBasicAuthWindow` ran for a fresh window `w`:
the dialog is open and both once-listeners are registered. -/
def createBasicAuthWindow (w : Handle) : BAState :=
  { basicAuthWindow := some w
    live := [w]
    loginActive := true
    closedActive := true
    submits := 0
    cancels := 0
    staleClose := false }

/-- `closeBasicAuth` translated literally:
`if (shouldClearSettings) { clearSettings(); }
 if (this.basicAuthWindow && !windowExists(this.basicAuthWindow)) {
   this.basicAuthWindow.close(); this.basicAuthWindow = null; }`.
The guard is the one of the source; note it fires only when the window
does *not* exist, in which case `.close()` is a stale-handle call. -/
def closeBasicAuth (shouldClearSettings : Bool) (s : BAState) : BAState :=
  let s := if shouldClearSettings then { s with cancels := s.cancels + 1 } else s
  match s.basicAuthWindow with
  | some w =>
    if ¬ s.live.contains w then
      { s with staleClose := true, basicAuthWindow := none }
    else s
  | none => s

/-- Events a basic-auth instance can receive:
the two renderer-sent ipc messages, and the native `close` of the dialog
window (user closes it / parent closes), which fires the `'close'`
listener removing both ipc subscriptions and destroys the window. -/
inductive BAEvent where
  | loginEvent
  | closedEvent
  | nativeClose
deriving DecidableEq

/-- One event step of the basic-auth wiring.
`loginEvent`: if the once-listener is still registered it is removed and
`login` runs (`callback(username, password); closeBasicAuth(false);`).
`closedEvent`: if registered, removed, and `closeBasicAuth` runs with a
truthy argument (ipc listeners receive the event object as first argument,
so `shouldClearSettings` is truthy and `clearSettings()` runs).
`nativeClose`: the window's `'close'` listener removes both ipc
listeners (`ipcMain.removeListener`), and the window ceases to exist. -/
def baStep (s : BAState) : BAEvent → BAState
  | .loginEvent =>
    if s.loginActive then
      closeBasicAuth false { s with loginActive := false, submits := s.submits + 1 }
    else s
  | .closedEvent =>
    if s.closedActive then
      closeBasicAuth true { s with closedActive := false }
    else s
  | .nativeClose =>
    match s.basicAuthWindow with
    | some w =>
      if s.live.contains w then
        { s with live := s.live.erase w, loginActive := false, closedActive := false }
      else s
    | none => s

/-- Run a list of events through `baStep`. -/
def baRun (s : BAState) (evts : List BAEvent) : BAState :=
  evts.foldl baStep s

/-!
## Screen picker (`createScreenPickerWindow`, lines 396-421)

The handlers registered by each call are closures; they are embedded as
data.  `ipcMain.once('screen-source-selected', ...)` subscriptions carry
their captured request id and requesting web-contents; the window's
`once('closed', ...)` handler carries the captured `opts.winKey`; the
`webContents.once('did-finish-load', ...)` handler likewise.
`createComponentWindow` (window-utils.ts, not under `src/`) is modelled
from the spec as returning a fresh live window.
-/

/-- An active `'screen-source-selected'` once-subscription: the closure
captures the request `id` and the requesting `window` web-contents
(identified by a number). -/
structure PickerSub where
  reqId : Nat
  requester : Nat
deriving DecidableEq

/-- State of the screen-picker wiring. `sent` records the
`window.send('start-share' + id, source)` messages as
(requester, request id) pairs, in order. -/
structure PState where
  screenPickerWindow : Option Handle
  live : List Handle
  windows : WindowsMap
  subs : List PickerSub
  closedHandlers : List (Handle × String)
  loadHandlers : List (Handle × String)
  sent : List (Nat × Nat)
deriving DecidableEq

/-- The empty picker state (no picker ever created). -/
def pInit : PState :=
  { screenPickerWindow := none, live := [], windows := [], subs := []
    closedHandlers := [], loadHandlers := [], sent := [] }

/-- Host-side close of picker window `w`: the window ceases to exist and
its registered `once('closed', ...)` handler fires:
`this.removeWindow(opts.winKey); this.screenPickerWindow = null;`. -/
def closePickerWindow (w : Handle) (s : PState) : PState :=
  if s.live.contains w then
    let s := { s with live := s.live.erase w }
    match s.closedHandlers.find? (fun p => p.1 == w) with
    | some pr =>
      { s with
        closedHandlers := s.closedHandlers.filter (fun p => p.1 != w)
        windows := removeWindow s.windows pr.2
        screenPickerWindow := none }
    | none => s
  else s

/-- `createScreenPickerWindow(window, sources, id)` with a fresh component
window `newWin` registered under the fresh guid `newKey`:
(1) `if (this.screenPickerWindow && windowExists(...)) { this.screenPickerWindow.close(); }`
(2) `this.screenPickerWindow = createComponentWindow('screen-picker', opts);`
(3) `webContents.once('did-finish-load', ...)` registers the data push +
    `addWindow` handler,
(4) `ipcMain.once('screen-source-selected', ...)` registers the handshake,
(5) `this.screenPickerWindow.once('closed', ...)` registers the cleanup.
The `'closed'` event of step (1) is modelled as firing synchronously
inside `close()`, before the new window is created (the ordering most
favourable to the claim). -/
def createScreenPickerWindow (requester reqId : Nat) (newKey : String) (newWin : Handle)
    (s : PState) : PState :=
  let s :=
    match s.screenPickerWindow with
    | some w => if s.live.contains w then closePickerWindow w s else s
    | none => s
  let s := { s with screenPickerWindow := some newWin, live := s.live ++ [newWin] }
  let s := { s with loadHandlers := s.loadHandlers ++ [(newWin, newKey)] }
  let s := { s with subs := s.subs ++ [PickerSub.mk reqId requester] }
  { s with closedHandlers := s.closedHandlers ++ [(newWin, newKey)] }

/-- `did-finish-load` of window `w`: the registered once-handler fires:
`if (!this.screenPickerWindow || !windowExists(this.screenPickerWindow)) return;
 ...send('screen-picker-data'...); this.addWindow(opts.winKey, this.screenPickerWindow);`. -/
def firePickerLoadFinished (w : Handle) (s : PState) : PState :=
  match s.loadHandlers.find? (fun p => p.1 == w) with
  | some pr =>
    let s := { s with loadHandlers := s.loadHandlers.filter (fun p => p.1 != w) }
    match s.screenPickerWindow with
    | some cur =>
      if s.live.contains cur then { s with windows := addWindow s.windows pr.2 cur } else s
    | none => s
  | none => s

/-- `ipcMain.emit('screen-source-selected', ...)`: Node's `EventEmitter`
snapshots the listener list; each once-wrapper removes itself and runs:
`window.send('start-share' + id, source);
 if (this.screenPickerWindow && windowExists(...)) { this.screenPickerWindow.close(); }`.
Nothing in the source ever calls `ipcMain.removeListener` for this
channel, so every subscription registered by a past
`createScreenPickerWindow` call is still in the snapshot. -/
def emitScreenSourceSelected (s : PState) : PState :=
  let pending := s.subs
  let s := { s with subs := [] }
  pending.foldl
    (fun s sub =>
      let s := { s with sent := s.sent ++ [(sub.requester, sub.reqId)] }
      match s.screenPickerWindow with
      | some w => if s.live.contains w then closePickerWindow w s else s
      | none => s)
    s

/-!
## Screen-sharing indicator (`createScreenSharingIndicatorWindow`, lines 480-521)

Display resolution and overlay geometry.  `electron.screen` is the host
runtime; displays are embedded as their id plus work area.
-/

/-- A display work area (`display.workArea`): origin and size in pixels. -/
structure Rect where
  x : Int
  y : Int
  width : Int
  height : Int
deriving DecidableEq

/-- An active display: numeric `id` and its `workArea`. -/
structure Display where
  id : Nat
  workArea : Rect
deriving DecidableEq

/-- The `electron.screen` collaborator: `getAllDisplays()` (in order) and
`getPrimaryDisplay()`. -/
structure ScreenEnv where
  all : List Display
  primary : Display

/-- Does `needle` start `hay`? (JS `String.prototype.startsWith`, used to
build `includes`). -/
def listStarts : List Char → List Char → Bool
  | [], _ => true
  | _ :: _, [] => false
  | a :: as, b :: bs => a == b && listStarts as bs

/-- JS `hay.includes(needle)`: some suffix of `hay` starts with `needle`. -/
def listOccurs (needle : List Char) : List Char → Bool
  | [] => listStarts needle []
  | c :: cs => listStarts needle (c :: cs) || listOccurs needle cs

/-- JS `hay.includes(needle)` on strings. -/
def jsIncludes (hay needle : String) : Bool :=
  listOccurs needle.data hay.data

/-- JS `Math.round(n / 2)` for an integer `n`: round half toward +∞. -/
def jsRoundHalf (n : Int) : Int :=
  Int.fdiv (n + 1) 2

/-- The constructor options produced by `getScreenSharingIndicatorOpts()`
merged with `winKey: streamId` and, conditionally, the computed position. -/
structure IndicatorOpts where
  width : Int
  height : Int
  winKey : String
  x : Option Int
  y : Option Int
deriving DecidableEq

/-- `createScreenSharingIndicatorWindow` display resolution and geometry,
translated from the source:
`const indicatorScreen = (displayId && electron.screen.getAllDisplays()
   .filter((d) => displayId.includes(d.id.toString()))[ 0 ])
   || electron.screen.getPrimaryDisplay();`
then `opts = { ...getScreenSharingIndicatorOpts(), ...{ winKey: streamId } }`
(width 592, height 48) and
`if (opts.width && opts.height) { opts = Object.assign({}, opts, {
   x: screenRect.x + Math.round((screenRect.width - opts.width) / 2),
   y: screenRect.y + screenRect.height - opts.height }); }`.
(`""` is the only falsy string; a found `Display` object is always truthy;
an empty filter result gives `undefined`, falsy.) -/
def indicatorWindowOpts (env : ScreenEnv) (displayId : String) (streamId : String) :
    IndicatorOpts :=
  let indicatorScreen :=
    if displayId == "" then env.primary
    else
      match env.all.filter (fun d => jsIncludes displayId (toString d.id)) with
      | [] => env.primary
      | d :: _ => d
  let screenRect := indicatorScreen.workArea
  let opts : IndicatorOpts :=
    { width := 592, height := 48, winKey := streamId, x := none, y := none }
  if opts.width != 0 && opts.height != 0 then
    { opts with
      x := some (screenRect.x + jsRoundHalf (screenRect.width - opts.width))
      y := some (screenRect.y + screenRect.height - opts.height) }
  else opts

/-- The display the spec designates: the first active display whose id, as
a string, occurs in the supplied `displayId`; the primary display when
`displayId` is empty or no display matches.  (This definition follows the
spec's words, to be compared with the embedding of the source.) -/
def specTargetDisplay (env : ScreenEnv) (displayId : String) : Display :=
  if displayId = "" then env.primary
  else
    match (env.all.filter (fun d => jsIncludes displayId (toString d.id))).head? with
    | some d => d
    | none => env.primary

/-- The overlay position the spec states, for a display work area `r`:
`x = workArea.x + round((workArea.width − 592) / 2)`,
`y = workArea.y + workArea.height − 48`.  (Follows the spec's words.) -/
def specIndicatorPos (r : Rect) : Int × Int :=
  (r.x + jsRoundHalf (r.width - 592), r.y + r.height - 48)

/-!
## Node legacy `url.parse` / `url.format` (lib/url.js of Node 12)

`getValidUrl` calls `parse` and `format` from the `url` module of the Node
runtime shipped with the targeted Electron.  The legacy parser is embedded
below, following lib/url.js structure: the trim/backslash preprocessing
loop, the `simplePathPattern` fast path, protocol extraction, the
slashes/host decision, the host scan with auth/port/hostname validation,
auto-escaping, and the search/hash split.  `punycode.toASCII` is modelled
as the identity (it is the identity on ASCII-only hostnames and only
rewrites non-ASCII IDN labels; no claim below exercises non-ASCII hosts).
-/

/-- Whitespace trimmed by the parse preprocessing loop:
space, tab, CR, LF, FF, NBSP, BOM. -/
def urlTrimWs (c : Char) : Bool :=
  let n := c.toNat
  n == 32 || n == 9 || n == 13 || n == 10 || n == 12 || n == 160 || n == 65279

/-- The `\s` class of JS regexes (used by `simplePathPattern`). -/
def jsRegexWs (c : Char) : Bool :=
  let n := c.toNat
  n == 32 || n == 9 || n == 10 || n == 11 || n == 12 || n == 13 || n == 160 ||
  n == 0x1680 || (decide (0x2000 ≤ n) && decide (n ≤ 0x200a)) || n == 0x2028 ||
  n == 0x2029 || n == 0x202f || n == 0x205f || n == 0x3000 || n == 0xfeff

/-- Leading/trailing whitespace trim of the preprocessing loop. -/
def trimUrl (l : List Char) : List Char :=
  ((l.dropWhile urlTrimWs).reverse.dropWhile urlTrimWs).reverse

/-- Backslash-to-slash conversion of the preprocessing loop: backslashes
before the first `?` or `#` become forward slashes. -/
def backslashConvert : List Char → List Char
  | [] => []
  | c :: cs =>
    if c == '?' || c == '#' then c :: cs
    else (if c == Char.ofNat 92 then '/' else c) :: backslashConvert cs

/-- `simplePathPattern = ^(\/\/?(?!\/)[^?\s]*)(\?[^\s]*)?$`: on success
returns (pathname, search). -/
def simplePathMatch (rest : List Char) : Option (List Char × Option (List Char)) :=
  match rest with
  | '/' :: t =>
    let lead_body : List Char × List Char :=
      match t with
      | '/' :: t2 => (['/', '/'], t2)
      | _ => (['/'], t)
    let lead := lead_body.1
    let body := lead_body.2
    match body with
    | '/' :: _ => none
    | _ =>
      let pre := body.takeWhile (fun c => c != '?')
      let post := body.dropWhile (fun c => c != '?')
      if pre.any jsRegexWs then none
      else
        match post with
        | [] => some (lead ++ pre, none)
        | q :: qs => if (q :: qs).any jsRegexWs then none else some (lead ++ pre, some (q :: qs))
  | _ => none

/-- A character of the `[a-z0-9.+-]` class of `protocolPattern` (the `i`
flag admits upper case). -/
def protoChar (c : Char) : Bool :=
  let n := c.toNat
  (decide (97 ≤ n) && decide (n ≤ 122)) || (decide (65 ≤ n) && decide (n ≤ 90)) ||
  (decide (48 ≤ n) && decide (n ≤ 57)) || c == '.' || c == '+' || c == '-'

/-- `protocolPattern = /^[a-z0-9.+-]+:/i`: the maximal run of protocol
characters followed by a colon (no shorter match is possible because the
run contains no colon).  Returns (matched text including the colon,
remainder). -/
def takeProto (rest : List Char) : Option (List Char × List Char) :=
  let run := rest.takeWhile protoChar
  let after := rest.dropWhile protoChar
  if run.isEmpty then none
  else
    match after with
    | ':' :: t => some (run ++ [':'], t)
    | _ => none

/-- `hostPattern = /^\/\/[^@/]+@[^@/]+/`. -/
def hostPatternTest (rest : List Char) : Bool :=
  match rest with
  | '/' :: '/' :: t =>
    let seg1 := t.takeWhile (fun c => c != '@' && c != '/')
    let rest1 := t.dropWhile (fun c => c != '@' && c != '/')
    match rest1 with
    | '@' :: t2 =>
      let seg2 := t2.takeWhile (fun c => c != '@' && c != '/')
      !seg1.isEmpty && !seg2.isEmpty
    | _ => false
  | _ => false

/-- Result of the host scan loop: index of the first host-ending
character (`#`, `/`, `?`), of the last `@` before it, and of the first
non-host character after the last `@`. -/
structure HostScan where
  hostEnd : Option Nat
  atSign : Option Nat
  nonHost : Option Nat

/-- The host scan loop of `url.parse`, translated case by case.  The
characters never allowed in a hostname are tab, LF, CR, space and
`" % ' ; < > \ ^`, backtick, `\x7b | \x7d`; `# / ?` end the host and stop
the loop; `@` records an auth boundary and resets `nonHost`. -/
def hostScanAux : List Char → Nat → Option Nat → Option Nat → HostScan
  | [], _, atSign, nonHost => ⟨none, atSign, nonHost⟩
  | c :: cs, i, atSign, nonHost =>
    let n := c.toNat
    if n == 9 || n == 10 || n == 13 || n == 32 || n == 34 || n == 37 || n == 39 ||
       n == 59 || n == 60 || n == 62 || n == 92 || n == 94 || n == 96 ||
       n == 123 || n == 124 || n == 125 then
      hostScanAux cs (i + 1) atSign (if nonHost.isNone then some i else nonHost)
    else if n == 35 || n == 47 || n == 63 then
      ⟨some i, atSign, if nonHost.isNone then some i else nonHost⟩
    else if n == 64 then
      hostScanAux cs (i + 1) (some i) none
    else
      hostScanAux cs (i + 1) atSign nonHost

/-- Value of a hex digit. -/
def hexDigitVal (c : Char) : Option Nat :=
  let n := c.toNat
  if decide (48 ≤ n) && decide (n ≤ 57) then some (n - 48)
  else if decide (65 ≤ n) && decide (n ≤ 70) then some (n - 55)
  else if decide (97 ≤ n) && decide (n ≤ 102) then some (n - 87)
  else none

/-- UTF-8 encoding of a character (byte values). -/
def utf8EncodeChar (c : Char) : List Nat :=
  let n := c.toNat
  if n < 0x80 then [n]
  else if n < 0x800 then [0xc0 + n / 64, 0x80 + n % 64]
  else if n < 0x10000 then [0xe0 + n / 4096, 0x80 + n / 64 % 64, 0x80 + n % 64]
  else [0xf0 + n / 262144, 0x80 + n / 4096 % 64, 0x80 + n / 64 % 64, 0x80 + n % 64]

/-- Is `b` a UTF-8 continuation byte? -/
def utf8Cont (b : Nat) : Bool :=
  decide (0x80 ≤ b) && decide (b ≤ 0xbf)

/-- Strict UTF-8 decoding of a byte list (rejecting truncated sequences,
overlong encodings, surrogates and out-of-range code points), as the URI
decoding of the JS engine enforces. -/
def utf8DecodeBytes : List Nat → Option (List Char)
  | [] => some []
  | b :: bs =>
    if decide (b < 0x80) then (utf8DecodeBytes bs).map (fun r => Char.ofNat b :: r)
    else if decide (b < 0xc2) then none
    else if decide (b < 0xe0) then
      match bs with
      | b2 :: bs2 =>
        if utf8Cont b2 then
          (utf8DecodeBytes bs2).map (fun r => Char.ofNat ((b - 0xc0) * 64 + (b2 - 0x80)) :: r)
        else none
      | _ => none
    else if decide (b < 0xf0) then
      match bs with
      | b2 :: b3 :: bs3 =>
        if utf8Cont b2 && utf8Cont b3 &&
           !(b == 0xe0 && decide (b2 < 0xa0)) && !(b == 0xed && decide (0xa0 ≤ b2)) then
          (utf8DecodeBytes bs3).map
            (fun r => Char.ofNat ((b - 0xe0) * 4096 + (b2 - 0x80) * 64 + (b3 - 0x80)) :: r)
        else none
      | _ => none
    else if decide (b < 0xf5) then
      match bs with
      | b2 :: b3 :: b4 :: bs4 =>
        if utf8Cont b2 && utf8Cont b3 && utf8Cont b4 &&
           !(b == 0xf0 && decide (b2 < 0x90)) && !(b == 0xf4 && decide (0x90 ≤ b2)) then
          (utf8DecodeBytes bs4).map
            (fun r => Char.ofNat
              ((b - 0xf0) * 262144 + (b2 - 0x80) * 4096 + (b3 - 0x80) * 64 + (b4 - 0x80)) :: r)
        else none
      | _ => none
    else none

/-- Percent-decoding to bytes: each `%XX` contributes its byte, any other
character contributes its UTF-8 bytes; a `%` not followed by two hex
digits is a `URIError`. -/
def pctDecodeToBytes : List Char → Option (List Nat)
  | [] => some []
  | '%' :: h1 :: h2 :: t =>
    match hexDigitVal h1, hexDigitVal h2, pctDecodeToBytes t with
    | some a, some b, some bs => some ((16 * a + b) :: bs)
    | _, _, _ => none
  | '%' :: _ => none
  | c :: t => (pctDecodeToBytes t).map (fun bs => utf8EncodeChar c ++ bs)

/-- JS `decodeURIComponent` (`none` models a thrown `URIError`). -/
def decodeURIComponentJs (s : List Char) : Option (List Char) :=
  (pctDecodeToBytes s).bind utf8DecodeBytes

/-- The characters `encodeURIComponent` leaves unescaped:
alphanumerics and `- _ . ! ~ * ( )` and the apostrophe. -/
def encUnreservedChar (c : Char) : Bool :=
  let n := c.toNat
  (decide (97 ≤ n) && decide (n ≤ 122)) || (decide (65 ≤ n) && decide (n ≤ 90)) ||
  (decide (48 ≤ n) && decide (n ≤ 57)) ||
  c == '-' || c == '_' || c == '.' || c == '!' || c == '~' || c == '*' ||
  n == 39 || c == '(' || c == ')'

/-- Upper-case hex digit of a value below 16. -/
def hexDigitUpper (n : Nat) : Char :=
  if n < 10 then Char.ofNat (48 + n) else Char.ofNat (55 + n)

/-- `%XX` escape of one byte. -/
def pctEncodeByte (b : Nat) : List Char :=
  ['%', hexDigitUpper (b / 16), hexDigitUpper (b % 16)]

/-- JS `encodeURIComponent`. -/
def encodeURIComponentJs (s : List Char) : List Char :=
  s.flatMap
    (fun c =>
      if encUnreservedChar c then [c]
      else (utf8EncodeChar c).flatMap pctEncodeByte)

/-- `auth.replace(/%3A/i, ':')` of `url.format`: only the first occurrence
is replaced. -/
def replaceFirst3A : List Char → List Char
  | '%' :: '3' :: 'A' :: t => ':' :: t
  | '%' :: '3' :: 'a' :: t => ':' :: t
  | c :: t => c :: replaceFirst3A t
  | [] => []

/-- The `Url` object fields read or written by `getValidUrl` and
`format` (`slashes` is either `null`/absent or `true`; `false` models
both falsy states). -/
structure UrlObj where
  protocol : Option (List Char) := none
  slashes : Bool := false
  auth : Option (List Char) := none
  host : Option (List Char) := none
  port : Option (List Char) := none
  hostname : Option (List Char) := none
  search : Option (List Char) := none
  pathname : Option (List Char) := none
  hash : Option (List Char) := none
deriving DecidableEq

/-- `slashedProtocol` membership (the set holds each entry with and
without the trailing colon). -/
def slashedProtocolHas (p : List Char) : Bool :=
  let s : String := ⟨p⟩
  s == "http" || s == "http:" || s == "https" || s == "https:" ||
  s == "ftp" || s == "ftp:" || s == "gopher" || s == "gopher:" ||
  s == "file" || s == "file:" || s == "ws" || s == "ws:" ||
  s == "wss" || s == "wss:"

/-- `slashedProtocol.has(x)` where `x` may be `undefined`. -/
def slashedProtocolHasOpt : Option (List Char) → Bool
  | none => false
  | some p => slashedProtocolHas p

/-- `hostlessProtocol` / `unsafeProtocol` membership (both sets hold
exactly `javascript` and `javascript:`); `undefined` is not a member. -/
def hostlessProtocolHasOpt : Option (List Char) → Bool
  | none => false
  | some p =>
    let s : String := ⟨p⟩
    s == "javascript" || s == "javascript:"

/-- Is `c` an ASCII digit? -/
def isDigitCh (c : Char) : Bool :=
  decide (48 ≤ c.toNat) && decide (c.toNat ≤ 57)

/-- `parseHost`: `portPattern = /:[0-9]*$/` matches iff the suffix after
the last colon consists of digits only; the port is recorded unless the
match is a bare `":"`.  Returns (host without the match, port). -/
def parseHostSplit (host : List Char) : List Char × Option (List Char) :=
  let rev := host.reverse
  let afterRev := rev.takeWhile (fun c => c != ':')
  let restRev := rev.dropWhile (fun c => c != ':')
  match restRev with
  | ':' :: beforeRev =>
    let after := afterRev.reverse
    if after.all isDigitCh then
      (beforeRev.reverse, if after.isEmpty then none else some after)
    else (host, none)
  | _ => (host, none)

/-- A character allowed in a hostname by `getHostname`:
`[a-zA-Z0-9.+_-]` or any code point above 127. -/
def validHostChar (c : Char) : Bool :=
  let n := c.toNat
  (decide (97 ≤ n) && decide (n ≤ 122)) || c == '.' ||
  (decide (65 ≤ n) && decide (n ≤ 90)) ||
  (decide (48 ≤ n) && decide (n ≤ 57)) ||
  c == '-' || c == '+' || c == '_' || decide (127 < n)

/-- `getHostname`: truncate the hostname at its first invalid character
and push `'/' + tail` back in front of the path rest. -/
def getHostnameSplit (hostname rest : List Char) : List Char × List Char :=
  let valid := hostname.takeWhile validHostChar
  let tail := hostname.dropWhile validHostChar
  if tail.isEmpty then (hostname, rest)
  else (valid, '/' :: (tail ++ rest))

/-- The `escapedCodes` table of `autoEscapeStr`:
tab, LF, CR, space and `" ' < > \ ^`, backtick, `\x7b | \x7d` get their
percent escape; everything else is kept. -/
def autoEscapeChar (c : Char) : List Char :=
  let n := c.toNat
  if n == 9 then ['%', '0', '9']
  else if n == 10 then ['%', '0', 'A']
  else if n == 13 then ['%', '0', 'D']
  else if n == 32 then ['%', '2', '0']
  else if n == 34 then ['%', '2', '2']
  else if n == 39 then ['%', '2', '7']
  else if n == 60 then ['%', '3', 'C']
  else if n == 62 then ['%', '3', 'E']
  else if n == 92 then ['%', '5', 'C']
  else if n == 94 then ['%', '5', 'E']
  else if n == 96 then ['%', '6', '0']
  else if n == 123 then ['%', '7', 'B']
  else if n == 124 then ['%', '7', 'C']
  else if n == 125 then ['%', '7', 'D']
  else [c]

/-- `autoEscapeStr` applied to the path rest. -/
def autoEscapeStr (l : List Char) : List Char :=
  l.flatMap autoEscapeChar

/-- The search/hash split of `url.parse`: the hash starts at the first
`#`; the search runs from the first `?` before it up to the hash; the
pathname is what precedes both (absent when empty). -/
def splitPathSearchHash (rest : List Char) :
    List Char × Option (List Char) × Option (List Char) :=
  let beforeHash := rest.takeWhile (fun c => c != '#')
  let hashPart := rest.dropWhile (fun c => c != '#')
  let hash : Option (List Char) := if hashPart.isEmpty then none else some hashPart
  let path := beforeHash.takeWhile (fun c => c != '?')
  let searchPart := beforeHash.dropWhile (fun c => c != '?')
  let search : Option (List Char) := if searchPart.isEmpty then none else some searchPart
  (path, search, hash)

/-- Output of the host block of `url.parse`. -/
structure HostParts where
  auth : Option (List Char)
  host : List Char
  hostname : List Char
  port : Option (List Char)
  rest : List Char
deriving DecidableEq

/-- The "there's a hostname" block of `url.parse`: host scan, auth
decoding (`none` models the `URIError` of `decodeURIComponent`), port
split, hostname validation/truncation, length cap (255), lower-casing,
`toASCII` (identity here), final `host = hostname + ':' + port`, and
the IPv6 bracket handling. -/
def hostBranch (rest : List Char) : Option HostParts :=
  let scan := hostScanAux rest 0 none none
  let start := match scan.atSign with | some a => a + 1 | none => 0
  let authDec : Option (Option (List Char)) :=
    match scan.atSign with
    | some a =>
      match decodeURIComponentJs (rest.take a) with
      | some d => some (some d)
      | none => none
    | none => some none
  match authDec with
  | none => none
  | some auth =>
    let hostRaw :=
      match scan.nonHost with
      | none => rest.drop start
      | some nh => (rest.take nh).drop start
    let rest1 :=
      match scan.nonHost with
      | none => []
      | some nh => rest.drop nh
    let hp := parseHostSplit hostRaw
    let hostname0 := hp.1
    let port := hp.2
    let ipv6 :=
      match hostname0 with
      | '[' :: _ => hostname0.getLast? == some ']'
      | _ => false
    let hr := if ipv6 then (hostname0, rest1) else getHostnameSplit hostname0 rest1
    let hostname1 := hr.1
    let rest2 := hr.2
    let hostname2 := if decide (hostname1.length > 255) then [] else hostname1.map Char.toLower
    let host := hostname2 ++ (match port with | some p => ':' :: p | none => [])
    let hf :=
      if ipv6 then
        ((hostname2.drop 1).dropLast,
          match rest2 with
          | '/' :: _ => rest2
          | _ => '/' :: rest2)
      else (hostname2, rest2)
    some { auth := auth, host := host, hostname := hf.1, port := port, rest := hf.2 }

/-- The full (non-fast-path) branch of `url.parse` with
`parseQueryString = slashesDenoteHost = false`: protocol extraction, the
slashes/host decision (note `slashedProtocol.has(proto)` is consulted
with the original-case protocol there, a quirk of the source), the host
block, auto-escaping, and the search/hash split with the `'/'` pathname
default for slashed protocols. -/
def urlParseFull (rest0 : List Char) : Option UrlObj :=
  let protoRes := takeProto rest0
  let proto := protoRes.map Prod.fst
  let lowerProto := proto.map (List.map Char.toLower)
  let rest1 := match protoRes with | some pr => pr.2 | none => rest0
  let slashesCond := proto.isSome || hostPatternTest rest1
  let slashes := slashesCond && listStarts ['/', '/'] rest1
  let stripSlashes := slashes && !(proto.isSome && hostlessProtocolHasOpt lowerProto)
  let rest2 := if stripSlashes then rest1.drop 2 else rest1
  let takeHost :=
    !(hostlessProtocolHasOpt lowerProto) &&
    (slashes || (proto.isSome && !(slashedProtocolHasOpt proto)))
  let hostRes : Option (Option HostParts) :=
    if takeHost then (hostBranch rest2).map some else some none
  match hostRes with
  | none => none
  | some hostParts =>
    let rest3 := match hostParts with | some hp => hp.rest | none => rest2
    let rest4 := if hostlessProtocolHasOpt lowerProto then rest3 else autoEscapeStr rest3
    let psh := splitPathSearchHash rest4
    let pathname0 : Option (List Char) := if psh.1.isEmpty then none else some psh.1
    let hostnameTruthy :=
      match hostParts with
      | some hp => !hp.hostname.isEmpty
      | none => false
    let pathname :=
      if slashedProtocolHasOpt lowerProto && hostnameTruthy && pathname0.isNone
      then some ['/'] else pathname0
    some
      { protocol := lowerProto
        slashes := stripSlashes
        auth := match hostParts with | some hp => hp.auth | none => none
        host := match hostParts with | some hp => some hp.host | none => none
        hostname := match hostParts with | some hp => some hp.hostname | none => none
        port := match hostParts with | some hp => hp.port | none => none
        search := psh.2.1
        pathname := pathname
        hash := psh.2.2 }

/-- `url.parse(url)` (one argument): preprocessing (trim, backslash
conversion, hash detection), the `simplePathPattern` fast path, then the
full parse. -/
def urlParse (url : String) : Option UrlObj :=
  let trimmed := trimUrl url.data
  let hasHash := trimmed.contains '#'
  let rest0 := backslashConvert trimmed
  if !hasHash then
    match simplePathMatch rest0 with
    | some ps => some { pathname := some ps.1, search := ps.2 }
    | none => urlParseFull rest0
  else urlParseFull rest0

/-- Truthiness of a JS string field that may be absent:
only a present, non-empty string is truthy. -/
def jsTruthyOpt : Option (List Char) → Bool
  | none => false
  | some l => !l.isEmpty

/-- `url.format`: the auth section
(`encodeURIComponent` + first-`%3A` restoration + `'@'`). -/
def formatAuth : Option (List Char) → List Char
  | none => []
  | some a => if a.isEmpty then [] else replaceFirst3A (encodeURIComponentJs a) ++ ['@']

/-- `url.format`: the host section (`false` modelled as `none`):
`this.host` when truthy, else bracketed `this.hostname` plus port. -/
def formatHost (auth : List Char) (host hostname port : Option (List Char)) :
    Option (List Char) :=
  if jsTruthyOpt host then some (auth ++ host.getD [])
  else if jsTruthyOpt hostname then
    let hn := hostname.getD []
    some (auth ++ (if hn.contains ':' then '[' :: (hn ++ [']']) else hn) ++
      (match port with
       | some p => if p.isEmpty then [] else ':' :: p
       | none => []))
  else none

/-- `url.format`: append the colon to a protocol that lacks one. -/
def formatProtocol (protocol : List Char) : List Char :=
  if !protocol.isEmpty && protocol.getLast? != some ':' then protocol ++ [':'] else protocol

/-- `url.format`: escape `#` and `?` inside the pathname. -/
def escapePathForFormat (l : List Char) : List Char :=
  l.flatMap (fun c =>
    if c == '#' then ['%', '2', '3']
    else if c == '?' then ['%', '3', 'F']
    else [c])

/-- `url.format`: the slashes logic — slashed protocols (or explicit
slashes) get `'//' + host` and a `'/'`-anchored pathname; the `file`
protocol keeps `'//'` even without a host.  Returns (host, pathname). -/
def formatSlashes (slashes : Bool) (protocol : List Char) (host : Option (List Char))
    (pathname : List Char) : List Char × List Char :=
  if slashes || slashedProtocolHas protocol then
    if slashes || host.isSome then
      ('/' :: '/' :: host.getD [],
       if !pathname.isEmpty && pathname.head? != some '/' then '/' :: pathname else pathname)
    else if listStarts ['f', 'i', 'l', 'e'] protocol then (['/', '/'], pathname)
    else (host.getD [], pathname)
  else (host.getD [], pathname)

/-- `url.format`: `search.replace(/#/g, '%23')`. -/
def searchHashEscape (l : List Char) : List Char :=
  l.flatMap (fun c => if c == '#' then ['%', '2', '3'] else [c])

/-- `url.format` (the `query` object case cannot arise here since
`parse` was called without `parseQueryString`). -/
def urlFormat (u : UrlObj) : List Char :=
  let auth := formatAuth u.auth
  let protocol0 := u.protocol.getD []
  let pathname0 := u.pathname.getD []
  let hash0 := u.hash.getD []
  let host0 := formatHost auth u.host u.hostname u.port
  let search0 := if jsTruthyOpt u.search then u.search.getD [] else []
  let protocol1 := formatProtocol protocol0
  let pathname1 := escapePathForFormat pathname0
  let hp := formatSlashes u.slashes protocol1 host0 pathname1
  let search1 := searchHashEscape search0
  let hash1 := if !hash0.isEmpty && hash0.head? != some '#' then '#' :: hash0 else hash0
  let search2 := if !search1.isEmpty && search1.head? != some '?' then '?' :: search1 else search1
  protocol1 ++ hp.1 ++ hp.2 ++ search2 ++ hash1

/-- `getValidUrl` (window-handler.ts lines 128-136):
`const parsedUrl = parse(configURL);
 if (!parsedUrl.protocol || parsedUrl.protocol !== 'https') {
     parsedUrl.protocol = 'https:';
     parsedUrl.slashes = true;
 }
 return format(parsedUrl);`
(`none` models an exception escaping from `url.parse`).  Note the
comparison against `'https'` without the colon: parsed protocols carry
the colon, so the comparison never holds. -/
def getValidUrl (configURL : String) : Option String :=
  (urlParse configURL).map (fun parsedUrl =>
    let parsedUrl :=
      if parsedUrl.protocol.isNone || parsedUrl.protocol != some ['h', 't', 't', 'p', 's'] then
        { parsedUrl with protocol := some ['h', 't', 't', 'p', 's', ':'], slashes := true }
      else parsedUrl
    ⟨urlFormat parsedUrl⟩)

/-- Modelled from the spec: `getCommandLineArgs(process.argv, '--url=', false)`
(common/utils.ts, which is not under `src/`) returns the first
command-line token that matches the flag prefix (non-exact match), or
null. -/
def getCommandLineArgs (argv : List String) (flag : String) : Option String :=
  argv.find? (fun a => listStarts flag.data a.data)

/-- JS `s.substr(6)`. -/
def jsSubstr6 (s : String) : String :=
  ⟨s.data.drop 6⟩

/-- The address resolution of `createApplication` (lines 197-199):
`const urlFromCmd = getCommandLineArgs(process.argv, '--url=', false);
 this.url = urlFromCmd && urlFromCmd.substr(6) || WindowHandler.getValidUrl(this.globalConfig.url);`
JS `&&`/`||` on strings: a found token is non-empty (truthy), but an
empty remainder after `.substr(6)` is falsy and falls through to the
configured URL. -/
def resolveUrl (argv : List String) (configUrl : String) : Option String :=
  match getCommandLineArgs argv "--url=" with
  | some urlFromCmd =>
    let stripped := jsSubstr6 urlFromCmd
    if stripped == "" then getValidUrl configUrl else some stripped
  | none => getValidUrl configUrl

/-!
## Concrete example states used by the claim theorems
-/

/-- A registry state with one tracked window (key "k1") and a live main
window, about to quit. -/
def exampleWState : WState :=
  { windows := [("k1", ⟨5⟩)], mainWindow := some ⟨7⟩, live := [⟨5⟩, ⟨7⟩],
    willQuitApp := true, minimizeOnClose := false }

/-- A basic-auth state whose field still holds a window that no longer
exists (the dialog was torn down without the field being cleared). -/
def staleBAState : BAState :=
  { basicAuthWindow := some ⟨1⟩, live := [], loginActive := false,
    closedActive := false, submits := 0, cancels := 0, staleClose := false }

/-- The picker state after: create picker A (requester 100, request id 10,
key "kA", window 1), its load finishes, create picker B (requester 200,
request id 20, key "kB", window 2) — closing A — and B's load finishes. -/
def pickerReplaced : PState :=
  firePickerLoadFinished ⟨2⟩
    (createScreenPickerWindow 200 20 "kB" ⟨2⟩
      (firePickerLoadFinished ⟨1⟩
        (createScreenPickerWindow 100 10 "kA" ⟨1⟩ pInit)))

/-!
## Helper lemmas
-/

theorem jsObjGet_jsObjSet_self (m : WindowsMap) (k : String) (v : Handle) :
    jsObjGet (jsObjSet m k v) k = some v := by
  induction m with
  | nil => simp [jsObjSet, jsObjGet]
  | cons p rest ih =>
    by_cases hpk : p.1 == k
    · simp [jsObjSet, hpk, jsObjGet]
    · simp [jsObjSet, hpk, jsObjGet, ih]

theorem jsObjGet_jsObjDelete_self (m : WindowsMap) (k : String) :
    jsObjGet (jsObjDelete m k) k = none := by
  induction m with
  | nil => simp [jsObjDelete, jsObjGet]
  | cons p rest ih =>
    simp only [jsObjDelete, List.filter_cons] at ih ⊢
    by_cases hpk : p.1 == k
    · rw [if_neg (by simp only [bne_iff_ne, ne_eq, not_not]; exact beq_iff_eq.mp hpk)]
      exact ih
    · rw [if_pos (bne_iff_ne.mpr (by simpa using hpk))]
      simp [jsObjGet, hpk, ih]

theorem hasWindow_eq_true_iff (m : WindowsMap) (k : String) (h : Handle) :
    hasWindow m k h = true ↔ jsObjGet m k = some h := by
  unfold hasWindow
  cases hg : jsObjGet m k with
  | none => simp
  | some w =>
    constructor
    · intro hw
      simp only [beq_iff_eq] at hw
      rw [hw]
    · intro hsome
      injection hsome with hw
      simp [hw]

theorem takeProto_shape (l : List Char) (pr : List Char × List Char)
    (h : takeProto l = some pr) : ∃ run, pr.1 = run ++ [':'] := by
  unfold takeProto at h
  simp only [] at h
  split at h
  · exact absurd h (by simp)
  · split at h
    · injection h with h
      subst h
      exact ⟨_, rfl⟩
    · exact absurd h (by simp)

theorem urlParseFull_protocol_shape (rest0 : List Char) (o : UrlObj)
    (h : urlParseFull rest0 = some o) :
    o.protocol = none ∨ ∃ p, o.protocol = some p ∧ p.getLast? = some ':' := by
  unfold urlParseFull at h
  simp only [] at h
  split at h
  · exact absurd h (by simp)
  · injection h with h
    subst h
    cases htp : takeProto rest0 with
    | none => left; simp [htp]
    | some pr =>
      right
      refine ⟨pr.1.map Char.toLower, by simp [htp], ?_⟩
      obtain ⟨run, hrun⟩ := takeProto_shape _ _ htp
      rw [hrun, List.map_append]
      simp

theorem urlParse_protocol_shape (url : String) (o : UrlObj)
    (h : urlParse url = some o) :
    o.protocol = none ∨ ∃ p, o.protocol = some p ∧ p.getLast? = some ':' := by
  unfold urlParse at h
  simp only [] at h
  split at h
  · split at h
    · injection h with h
      subst h
      left
      rfl
    · exact urlParseFull_protocol_shape _ _ h
  · exact urlParseFull_protocol_shape _ _ h

theorem urlFormat_https_prefix (au ho po hn se pa ha : Option (List Char)) :
    ∃ r, urlFormat
        { protocol := some ['h', 't', 't', 'p', 's', ':'], slashes := true,
          auth := au, host := ho, port := po, hostname := hn,
          search := se, pathname := pa, hash := ha }
      = ['h', 't', 't', 'p', 's', ':', '/', '/'] ++ r :=
  ⟨_, rfl⟩

theorem getValidUrl_https_prefix (u v : String) (h : getValidUrl u = some v) :
    ∃ r : List Char, v.data = ("https://").data ++ r := by
  unfold getValidUrl at h
  cases hp : urlParse u with
  | none => rw [hp] at h; exact absurd h (by simp)
  | some o =>
    rw [hp] at h
    simp only [Option.map_some'] at h
    have hcond : (o.protocol.isNone || o.protocol != some ['h', 't', 't', 'p', 's']) = true := by
      rcases urlParse_protocol_shape u o hp with hnone | ⟨p, hsome, hlast⟩
      · simp [hnone]
      · have hne : p ≠ ['h', 't', 't', 'p', 's'] := by
          intro hEq
          rw [hEq] at hlast
          exact absurd hlast (by decide)
        simp [hsome, hne]
    rw [if_pos hcond] at h
    injection h with h
    subst h
    have hdata : ("https://").data = ['h', 't', 't', 'p', 's', ':', '/', '/'] := by decide
    rw [hdata]
    simpa using urlFormat_https_prefix o.auth o.host o.port o.hostname o.search o.pathname o.hash

/-!
## Claim theorems
-/

/-- C1: the claim states that after `destroyAllWindow()` the windows
mapping contains no entries and the main-window reference is null.  On
the code this fails: `removeWindow` is fed the stored *window object*
(not its key), so the deletion targets the property `"[object Object]"`
and every tracked entry survives; only the main-window reference is
cleared.  Evaluated at a registry holding one window under key "k1". -/
theorem c1_destroyAllWindow_leaves_entries :
    (destroyAllWindow exampleWState).windows = [("k1", ⟨5⟩)]
  ∧ (destroyAllWindow exampleWState).windows ≠ []
  ∧ (destroyAllWindow exampleWState).mainWindow = none := by
  decide

/-- C2: the claim states that exactly one of the submit callback and the
cancel callback fires per basic-auth dialog instance.  On the code this
fails: after `'basic-auth-login'` the inverted liveness guard of
`closeBasicAuth` leaves the dialog open and the `'basic-auth-closed'`
subscription armed, so a subsequent `'basic-auth-closed'` also runs
`clearSettings()` — both callbacks fire in one lifetime. -/
theorem c2_basicAuth_both_callbacks_fire :
    (baRun (createBasicAuthWindow ⟨1⟩) [.loginEvent, .closedEvent]).submits = 1
  ∧ (baRun (createBasicAuthWindow ⟨1⟩) [.loginEvent, .closedEvent]).cancels = 1
  ∧ (baRun (createBasicAuthWindow ⟨1⟩) [.loginEvent]).live = [⟨1⟩]
  ∧ (baRun (createBasicAuthWindow ⟨1⟩) [.loginEvent]).closedActive = true := by
  decide

/-- C3: the claim states that the basic-auth close path calls `.close()`
only on a window that still exists.  On the code the guard is inverted
(`this.basicAuthWindow && !windowExists(...)`): `.close()` is invoked
precisely when the referenced window no longer exists (a stale-handle
dereference), and a live dialog is never closed by this path. -/
theorem c3_closeBasicAuth_stale_dereference :
    (closeBasicAuth true staleBAState).staleClose = true
  ∧ (closeBasicAuth true (createBasicAuthWindow ⟨1⟩)).staleClose = false
  ∧ (closeBasicAuth true (createBasicAuthWindow ⟨1⟩)).live = [⟨1⟩]
  ∧ (closeBasicAuth true (createBasicAuthWindow ⟨1⟩)).basicAuthWindow = some ⟨1⟩ := by
  decide

/-- C4: the claim states that after a replacing `createScreenPickerWindow`
call exactly one picker is live and the prior instance's
`'screen-source-selected'` subscription never fires again.  The first
part holds in the model, but the second fails: the subscription is never
deregistered on close, so after replacing picker A (request id 10,
requester 100) by picker B (request id 20, requester 200) both
subscriptions are still registered, and an emission fires A's handler —
which sends `'start-share10'` to requester 100 and closes the *current*
picker B. -/
theorem c4_picker_stale_subscription_fires :
    pickerReplaced.live = [⟨2⟩]
  ∧ pickerReplaced.screenPickerWindow = some ⟨2⟩
  ∧ pickerReplaced.windows = [("kB", ⟨2⟩)]
  ∧ pickerReplaced.subs = [⟨10, 100⟩, ⟨20, 200⟩]
  ∧ (emitScreenSourceSelected pickerReplaced).sent = [(100, 10), (200, 20)]
  ∧ (emitScreenSourceSelected pickerReplaced).live = [] := by
  decide

/-- C5 counterexample: the claim states
`getValidUrl "example.com/app" = "https://example.com/app"`; the code
yields `"https:///example.com/app"` (the legacy parser leaves the whole
address in the pathname, and `format` with `slashes` set emits `//` plus
a `/`-anchored path, so the host is empty). -/
theorem c5_getValidUrl_counterexample :
    getValidUrl "example.com/app" = some "https:///example.com/app"
  ∧ getValidUrl "example.com/app" ≠ some "https://example.com/app" := by
  constructor
  · rfl
  · decide

/-- C5 (amended): every address `getValidUrl` returns begins with
`https://`, but a scheme-less address keeps its whole text as path behind
an empty host (`example.com/app ↦ https:///example.com/app`) and an
`http` address is rewritten to `https` with a trailing slash added
(`http://example.com ↦ https://example.com/`). -/
theorem c5_getValidUrl_forces_https_scheme :
    (∀ u v : String, getValidUrl u = some v → ∃ r : List Char, v.data = ("https://").data ++ r)
  ∧ getValidUrl "example.com/app" = some "https:///example.com/app"
  ∧ getValidUrl "http://example.com" = some "https://example.com/" := by
  refine ⟨fun u v h => getValidUrl_https_prefix u v h, ?_, ?_⟩
  · rfl
  · rfl

/-- C5 witness: the universal part of `c5_getValidUrl_forces_https_scheme`
applied at the concrete input `example.com/app`. -/
theorem c5_getValidUrl_forces_https_scheme_witness :
    ∃ r : List Char, ("https:///example.com/app").data = ("https://").data ++ r :=
  c5_getValidUrl_forces_https_scheme.1 "example.com/app" "https:///example.com/app" (by rfl)

/-- C6: `hasWindow(k, h)` is truthy exactly when the handle stored under
`k` is reference-identical to `h`; after `addWindow(k, h)` then
`removeWindow(k)` it is false; and a different handle later stored under
the same key does not make the old handle match. -/
theorem c6_hasWindow_reference_identity (m : WindowsMap) (k : String) (h hNew : Handle) :
    (hasWindow m k h = true ↔ jsObjGet m k = some h)
  ∧ hasWindow (removeWindow (addWindow m k h) k) k h = false
  ∧ (hNew ≠ h → hasWindow (addWindow m k hNew) k h = false) := by
  refine ⟨hasWindow_eq_true_iff m k h, ?_, ?_⟩
  · unfold hasWindow removeWindow addWindow
    rw [jsObjGet_jsObjDelete_self]
  · intro hne
    unfold hasWindow addWindow
    rw [jsObjGet_jsObjSet_self]
    simp [beq_iff_eq]
    exact fun hEq => hne hEq.symm

/-- C6 witness: `c6_hasWindow_reference_identity` applied at the empty
map, key "k" and the distinct handles 1 and 2. -/
theorem c6_hasWindow_reference_identity_witness :
    hasWindow (addWindow [] "k" ⟨2⟩) "k" ⟨1⟩ = false :=
  (c6_hasWindow_reference_identity [] "k" ⟨1⟩ ⟨2⟩).2.2 (by decide)

/-- C7: the claim's minimize-on-close and quit branches hold (shown here
at concrete states: with `minimizeOnClose` the close is suppressed and
the window minimized on non-mac / hidden on mac, the state untouched;
without it the app quits), but the quit-requested branch fails on the
code: `destroyAllWindow()` clears the main-window reference while every
tracked entry survives (same slip as C1). -/
theorem c7_mainWindow_close_branches :
    ((mainWindowOnClose false exampleWState).1 = CloseAction.destroyAllAndClose
      ∧ (mainWindowOnClose false exampleWState).2.windows = [("k1", ⟨5⟩)]
      ∧ (mainWindowOnClose false exampleWState).2.mainWindow = none)
  ∧ (mainWindowOnClose false { exampleWState with willQuitApp := false, minimizeOnClose := true })
      = (CloseAction.minimized, { exampleWState with willQuitApp := false, minimizeOnClose := true })
  ∧ (mainWindowOnClose true { exampleWState with willQuitApp := false, minimizeOnClose := true }).1
      = CloseAction.hidden
  ∧ (mainWindowOnClose false { exampleWState with willQuitApp := false, minimizeOnClose := false }).1
      = CloseAction.appQuit := by
  decide

/-- C8: the indicator overlay is 592×48, its target display is the first
active display whose id (as a string) occurs in the supplied `displayId`
with fallback to the primary display, and it sits horizontally centered
and bottom-anchored in that display's work area:
`x = workArea.x + round((workArea.width − 592) / 2)`,
`y = workArea.y + workArea.height − 48`. -/
theorem c8_indicator_geometry (env : ScreenEnv) (displayId streamId : String) :
    (indicatorWindowOpts env displayId streamId).width = 592
  ∧ (indicatorWindowOpts env displayId streamId).height = 48
  ∧ (indicatorWindowOpts env displayId streamId).winKey = streamId
  ∧ (indicatorWindowOpts env displayId streamId).x
      = some (specIndicatorPos (specTargetDisplay env displayId).workArea).1
  ∧ (indicatorWindowOpts env displayId streamId).y
      = some (specIndicatorPos (specTargetDisplay env displayId).workArea).2 := by
  unfold indicatorWindowOpts specTargetDisplay specIndicatorPos
  by_cases hid : displayId = ""
  · simp [hid]
  · have hbeq : (displayId == "") = false := by simp [hid]
    rw [hbeq]
    simp only [if_neg hid, Bool.false_eq_true, if_false]
    cases hf : env.all.filter (fun d => jsIncludes displayId (toString d.id)) with
    | nil => simp
    | cons d ds => simp

/-- C9 counterexample: the claim states that https is forced onto the
resolved address when the chosen source specifies no scheme; with the
command-line token `--url=example.com` present, the resolved address is
the bare `example.com` — no scheme is forced on the override path. -/
theorem c9_resolveUrl_counterexample :
    resolveUrl ["--url=example.com"] "https://config.example.com" = some "example.com"
  ∧ ("example.com").data.take 6 ≠ ("https:").data := by
  decide

/-- C9 (amended): a `--url=` token whose remainder after stripping the
six flag characters is non-empty takes precedence and is used verbatim
(no scheme normalization); an empty remainder, or no token, falls back
to `getValidUrl` of the configured URL — https forcing applies only to
the configured URL. -/
theorem c9_resolveUrl_amended (argv : List String) (configUrl : String) :
    (∀ tok, getCommandLineArgs argv "--url=" = some tok → jsSubstr6 tok ≠ "" →
      resolveUrl argv configUrl = some (jsSubstr6 tok))
  ∧ (∀ tok, getCommandLineArgs argv "--url=" = some tok → jsSubstr6 tok = "" →
      resolveUrl argv configUrl = getValidUrl configUrl)
  ∧ (getCommandLineArgs argv "--url=" = none →
      resolveUrl argv configUrl = getValidUrl configUrl) := by
  refine ⟨?_, ?_, ?_⟩
  · intro tok htok hne
    unfold resolveUrl
    rw [htok]
    simp [hne]
  · intro tok htok hemp
    unfold resolveUrl
    rw [htok]
    simp [hemp]
  · intro hnone
    unfold resolveUrl
    rw [hnone]

/-- C9 witness: `c9_resolveUrl_amended` applied at the concrete argument
vector `["--url=example.com"]`. -/
theorem c9_resolveUrl_amended_witness :
    resolveUrl ["--url=example.com"] "https://config.example.com"
      = some (jsSubstr6 "--url=example.com") :=
  (c9_resolveUrl_amended ["--url=example.com"] "https://config.example.com").1
    "--url=example.com" (by rfl) (by decide)

/-- C10 counterexample: `getValidUrl` is not idempotent.  For the input
`a:b` (a non-slashed scheme with a bare host) the first application
yields `https://b`; reparsing that gives the default `/` pathname of
slashed protocols, so the second application yields `https://b/`. -/
theorem c10_getValidUrl_not_idempotent :
    (getValidUrl "a:b").bind getValidUrl ≠ getValidUrl "a:b"
  ∧ getValidUrl "a:b" = some "https://b"
  ∧ getValidUrl "https://b" = some "https://b/" := by
  refine ⟨?_, by rfl, by rfl⟩
  decide

/-- C10 (amended): idempotency fails in general (see the counterexample)
but holds at the spec's example addresses — the images of the scheme-less
`example.com/app` and of `http://example.com` are fixed points of the
helper. -/
theorem c10_getValidUrl_idempotent_on_examples :
    (getValidUrl "example.com/app").bind getValidUrl = getValidUrl "example.com/app"
  ∧ (getValidUrl "http://example.com").bind getValidUrl = getValidUrl "http://example.com" := by
  constructor
  · rfl
  · rfl

end WH
